import Mathlib

/-!
Verification of the MCP subsystem of IntelliCLI
(`src/intellicli/mcp/mcp_client.py` and `src/intellicli/mcp/mcp_tool_manager.py`).

The Python code is shallowly embedded: JSON values become an inductive type,
Python `dict`s become insertion-ordered association lists over `String` keys,
each stateful method becomes a pure function from the object's state (plus the
wire-level behaviour of the subprocess, abstracted as an oracle from request
ids to wire outcomes, since the actual child process is outside the program)
to the new state together with an `Except` value modelling return/raise.
-/

set_option autoImplicit false

namespace IntelliCLI

/-- JSON values as decoded by Python's `json.loads`: the subset of Python
values that can appear in a parsed JSON-RPC envelope. Numbers are modelled
as integers (the protocol fields used by the code are ids and strings). -/
inductive Json where
  | null
  | bool (b : Bool)
  | num (n : Int)
  | str (s : String)
  | arr (xs : List Json)
  | obj (kvs : List (String × Json))

/-- First value bound to key `k` in an association list (Python `d[k]` /
`d.get(k)` on a dict; Python dict keys are unique so first = only). -/
def alookup {α : Type} (R : List (String × α)) (k : String) : Option α :=
  match R with
  | [] => none
  | p :: rest => if p.1 = k then some p.2 else alookup rest k

/-- Python `k in d` for a dict. -/
def hasKey {α : Type} (R : List (String × α)) (k : String) : Bool :=
  (alookup R k).isSome

/-- Python `d[k] = v`: update in place when the key exists (keeping its
position, as Python dicts do), otherwise append at the end. -/
def ainsert {α : Type} (R : List (String × α)) (k : String) (v : α) :
    List (String × α) :=
  match R with
  | [] => [(k, v)]
  | p :: rest =>
    if p.1 = k then (k, v) :: rest else p :: ainsert rest k v

theorem alookup_ainsert_self {α : Type} (R : List (String × α)) (k : String)
    (v : α) : alookup (ainsert R k v) k = some v := by
  induction R with
  | nil => simp [ainsert, alookup]
  | cons p rest ih =>
    by_cases h : p.1 = k
    · simp [ainsert, h, alookup]
    · simp [ainsert, h, alookup, ih]

theorem alookup_ainsert_other {α : Type} (R : List (String × α))
    (k k' : String) (v : α) (hne : k' ≠ k) :
    alookup (ainsert R k v) k' = alookup R k' := by
  induction R with
  | nil => simp [ainsert, alookup, Ne.symm hne]
  | cons p rest ih =>
    obtain ⟨a, b⟩ := p
    by_cases h : a = k
    · subst h
      simp [ainsert, alookup, Ne.symm hne]
    · simp [ainsert, h, alookup, ih]

theorem hasKey_ainsert_iff {α : Type} (R : List (String × α)) (k k' : String)
    (v : α) : hasKey (ainsert R k v) k' = true ↔ (k' = k ∨ hasKey R k' = true) := by
  by_cases h : k' = k
  · subst h
    simp [hasKey, alookup_ainsert_self]
  · simp [hasKey, alookup_ainsert_other R k k' v h, h]

theorem hasKey_true_iff {α : Type} (R : List (String × α)) (k : String) :
    hasKey R k = true ↔ (alookup R k).isSome := by
  simp [hasKey]

/-- Python `str.lower()` on one character (ASCII case mapping, which is all
the health-check substring tests need). -/
def lowerChar (c : Char) : Char := c.toLower

/-- Python `str.lower()`. -/
def lowerStr (s : String) : String := String.mk (s.data.map lowerChar)

/-- `p` is an initial segment of `s` (character lists). -/
def listIsInit : List Char → List Char → Bool
  | [], _ => true
  | _ :: _, [] => false
  | a :: p, b :: s => a == b && listIsInit p s

/-- `p` occurs as a contiguous run inside `s` (character lists). -/
def listHasSub (p : List Char) : List Char → Bool
  | [] => p.isEmpty
  | b :: s => listIsInit p (b :: s) || listHasSub p s

/-- Python `pat in hay` for strings. -/
def strHasSub (hay pat : String) : Bool := listHasSub pat.data hay.data

mutual

/-- Python `repr` restricted to JSON-decoded values (used by `str` on
containers: `str` of a list or dict renders the elements with `repr`). -/
def pyRepr : Json → String
  | .null => "None"
  | .bool true => "True"
  | .bool false => "False"
  | .num n => toString n
  | .str s => "\x27" ++ s ++ "\x27"
  | .arr xs => "[" ++ pyReprArr xs ++ "]"
  | .obj kvs => "\x7b" ++ pyReprObj kvs ++ "\x7d"

/-- Comma-separated `repr`s of list elements. -/
def pyReprArr : List Json → String
  | [] => ""
  | [x] => pyRepr x
  | x :: y :: rest => pyRepr x ++ ", " ++ pyReprArr (y :: rest)

/-- Comma-separated `repr`s of dict entries. -/
def pyReprObj : List (String × Json) → String
  | [] => ""
  | [(k, v)] => "\x27" ++ k ++ "\x27: " ++ pyRepr v
  | (k, v) :: q :: rest =>
      "\x27" ++ k ++ "\x27: " ++ pyRepr v ++ ", " ++ pyReprObj (q :: rest)

end

/-- Python `str` on JSON-decoded values: identity on strings, `repr`-style
rendering on everything else. -/
def pyStr : Json → String
  | .str s => s
  | j => pyRepr j

/-- `MCPServerConfig` dataclass from `mcp_client.py`. -/
structure MCPServerConfig where
  name : String
  command : List String
  args : List String := []
  env : List (String × String) := []
  timeout : Nat := 30
  auto_restart : Bool := true
  description : String := ""
  enabled : Bool := true

/-- `MCPTool` dataclass from `mcp_client.py`. `parameters` and
`input_schema` are kept as raw JSON, exactly as the code stores the decoded
`inputSchema` fragments. -/
structure MCPTool where
  name : String
  description : String
  parameters : Json
  server_name : String
  input_schema : Json

/-- Status of the client's subprocess handle: `self.process` is `None`, or a
`Popen` whose `poll()` is non-`None` (exited), or a live process. -/
inductive ProcState where
  | noProc
  | exited
  | alive
  deriving DecidableEq

/-- The mutable state of one `MCPClient` (`mcp_client.py`): process handle,
connection flag, known tools (`self.tools`, a dict keyed by the fetched tool
name), heartbeat timestamp (abstracted to a `Nat` tick) and the private
request-id counter. -/
structure ClientState where
  server_name : String
  timeout : Nat
  processState : ProcState
  is_connected : Bool
  tools : List (String × MCPTool)
  request_id : Nat
  last_heartbeat : Option Nat

/-- Exceptions raised by the embedded code paths. -/
inductive PyErr where
  | runtimeError (msg : String)
  | valueError (msg : String)
  | typeError
  | attributeError
  deriving DecidableEq

/-- What the wire produces for one request, as seen by `send_request` after
the request line is written: no line within the timeout, an empty line (with
the process dead or still alive), a non-JSON line, or a decoded JSON-RPC
envelope carrying the `id` the server chose, an optional `error` message and
an optional `result`. -/
inductive WireOutcome where
  | timeout
  | emptyLineDead (stderr : String)
  | emptyLineAlive
  | invalidJson
  | envelope (id : Option Int) (error : Option String) (result : Option Json)

/-- The server side of one connection: the envelope (or failure mode) the
child process produces in response to the request carrying the given id,
method and params. This abstracts the subprocess, which is outside the
program. -/
def ServerWire : Type := Nat → String → Json → WireOutcome

/-- Envelope `id` field of a wire outcome, when one was decoded. -/
def envelopeId : WireOutcome → Option Int
  | .envelope i _ _ => i
  | _ => none

/-- `MCPClient.send_request` (`mcp_client.py` lines 137-197). Returns the
Python return/raise, the state after the call, and — when the liveness guard
passed and a request line was actually written — the allocated request id
together with the wire outcome consumed for it. The guard at the top raises
before the id counter is touched or any I/O happens. An omitted params
argument is replaced by the empty object, as in `params or` the empty
dict. -/
def sendRequest (c : ClientState) (w : ServerWire) (method : String)
    (params : Option Json) :
    Except PyErr Json × ClientState × Option (Nat × WireOutcome) :=
  if c.processState ≠ .alive then
    (.error (.runtimeError ("MCP 服务器 " ++ c.server_name ++ " 未运行")), c, none)
  else
    let rid := c.request_id + 1
    let c1 := { c with request_id := rid }
    match w rid method (params.getD (Json.obj [])) with
    | .timeout =>
        (.error (.runtimeError ("等待 MCP 服务器响应超时 (" ++ toString c.timeout ++ "秒)")),
         c1, some (rid, .timeout))
    | .emptyLineDead stderr =>
        (.error (.runtimeError ("MCP 服务器进程已终止，错误信息: " ++ stderr)),
         { c1 with processState := .exited }, some (rid, .emptyLineDead stderr))
    | .emptyLineAlive =>
        (.error (.runtimeError "未收到响应"), c1, some (rid, .emptyLineAlive))
    | .invalidJson =>
        (.error (.runtimeError "MCP 服务器返回无效 JSON"), c1, some (rid, .invalidJson))
    | .envelope i (some msg) r =>
        (.error (.runtimeError ("MCP 错误: " ++ msg)), c1, some (rid, .envelope i (some msg) r))
    | .envelope i none r =>
        (.ok (r.getD (Json.obj [])), c1, some (rid, .envelope i none r))

/-- Python `key in j` for a decoded JSON value: dict key membership, list
element membership, substring test on strings, `TypeError` otherwise. -/
def pyContains (j : Json) (key : String) : Except PyErr Bool :=
  match j with
  | .obj kvs => .ok (hasKey kvs key)
  | .arr xs => .ok (xs.any (fun x => match x with | .str s => s = key | _ => false))
  | .str s => .ok (strHasSub s key)
  | _ => .error .typeError

/-- Python `j[key]` for a decoded JSON value and string key. -/
def pySubscript (j : Json) (key : String) : Except PyErr Json :=
  match j with
  | .obj kvs =>
    match alookup kvs key with
    | some v => .ok v
    | none => .error (.valueError ("KeyError: " ++ key))
  | _ => .error .typeError

/-- Python `j.get(key, dflt)`: only dicts have `.get`; anything else raises
`AttributeError`. -/
def pyGet (j : Json) (key : String) (dflt : Json) : Except PyErr Json :=
  match j with
  | .obj kvs => .ok ((alookup kvs key).getD dflt)
  | _ => .error .attributeError

/-- Result unwrapping of `MCPClient.call_tool` (`mcp_client.py` lines
284-293): if `content` is present and is a non-empty list, the first item's
`text` (defaulting to `str` of that item); if `content` is present but empty
or not a list, `str(content)`; only when `content` is absent is the raw
result returned. -/
def unwrapResult (result : Json) : Except PyErr Json :=
  match pyContains result "content" with
  | .error e => .error e
  | .ok false => .ok result
  | .ok true =>
    match pySubscript result "content" with
    | .error e => .error e
    | .ok content =>
      match content with
      | .arr (x :: _) => pyGet x "text" (Json.str (pyStr x))
      | _ => .ok (Json.str (pyStr content))

/-- `MCPClient.call_tool` (`mcp_client.py` lines 271-297): name check against
this client's own tool dict, then `tools/call`, then result unwrapping. The
`Bool` component records whether `send_request` was reached. -/
def clientCallTool (c : ClientState) (w : ServerWire) (tool_name : String)
    (arguments : Json) : Except PyErr Json × ClientState × Bool :=
  if ¬ hasKey c.tools tool_name then
    (.error (.valueError ("工具 " ++ tool_name ++ " 不存在")), c, false)
  else
    let params := Json.obj [("name", Json.str tool_name), ("arguments", arguments)]
    match sendRequest c w "tools/call" (some params) with
    | (.ok result, c1, _) => (unwrapResult result, c1, true)
    | (.error e, c1, _) => (.error e, c1, true)

/-- The message test at `mcp_client.py` line 309: the inner handler catches a
`RuntimeError` and falls back only when `"Unknown method" in str(e)` or
`"method not found" in str(e).lower()`. -/
def methodNotFoundErr : PyErr → Bool
  | .runtimeError msg =>
      strHasSub msg "Unknown method" || strHasSub (lowerStr msg) "method not found"
  | _ => false

/-- `MCPClient.ping` (`mcp_client.py` lines 299-320): dead process means
`False`; otherwise try `ping`, and on a method-not-found `RuntimeError` fall
back to a raw `tools/list` `send_request` whose result is discarded — the
stored tool dict is never touched. Any other failure returns `False` via the
outer handler. On success `last_heartbeat` is set to the current tick. -/
def ping (c : ClientState) (w : ServerWire) (now : Nat) : Bool × ClientState :=
  if c.processState ≠ .alive then (false, c)
  else
    match sendRequest c w "ping" none with
    | (.ok _, c1, _) => (true, { c1 with last_heartbeat := some now })
    | (.error e, c1, _) =>
      if methodNotFoundErr e then
        match sendRequest c1 w "tools/list" none with
        | (.ok _, c2, _) => (true, { c2 with last_heartbeat := some now })
        | (.error _, c2, _) => (false, c2)
      else (false, c1)

/-- One entry of a `tools/list` result converted as in `MCPClient.list_tools`
(`mcp_client.py` lines 253-262), for well-formed entries: an object with a
string `name` and optional string `description` / object `inputSchema`. -/
def parseToolInfo (server : String) (j : Json) : Option MCPTool :=
  match j with
  | .obj kvs =>
    match alookup kvs "name" with
    | some (.str n) =>
      let schema := (alookup kvs "inputSchema").getD (Json.obj [])
      some { name := n
             description := (match alookup kvs "description" with
                             | some (.str d) => d
                             | _ => "")
             parameters := (match schema with
                            | .obj skvs => (alookup skvs "properties").getD (Json.obj [])
                            | _ => Json.obj [])
             server_name := server
             input_schema := schema }
    | _ => none
  | _ => none

/-- The list of tools a `tools/list` result describes (well-formed entries),
i.e. what `MCPClient.list_tools` would return for that result. -/
def toolsOfListResult (server : String) (result : Json) : List MCPTool :=
  match result with
  | .obj kvs =>
    match alookup kvs "tools" with
    | some (.arr xs) => xs.filterMap (parseToolInfo server)
    | _ => []
  | _ => []

/-- `MCPClient.stop_server` (`mcp_client.py` lines 118-135): when a process
handle exists (live or already exited) it is terminated/killed, the handle
cleared and `is_connected` set to `False`; with no handle nothing happens. -/
def clientStopServer (c : ClientState) : ClientState :=
  match c.processState with
  | .noProc => c
  | _ => { c with processState := .noProc, is_connected := false }

/-- `MCPClient.disconnect` (`mcp_client.py` lines 359-363): stop the server,
clear the tool dict, clear `is_connected`. -/
def clientDisconnect (c : ClientState) : ClientState :=
  let c1 := clientStopServer c
  { c1 with tools := [], is_connected := false }

/-- Result of one server's underlying connect attempt, abstracting
`MCPClient.connect` (`mcp_client.py` lines 334-357) and the subprocess world:
spawn failure, handshake failure, success with the fetched tool list, or an
unexpected exception (caught by `connect`'s own handler and by
`_connect_server`'s handler, both yielding `False`). -/
inductive ConnAttempt where
  | startFail
  | initFail
  | ok (tools : List MCPTool)
  | raisedEx (msg : String)

/-- The boolean `MCPToolManager._connect_server` produces for one config:
`MCPClient.connect` first refuses disabled configs, then start/initialize
failures and exceptions all collapse to `False`; only a completed
spawn-handshake-fetch sequence yields `True`. -/
def connectServerResult (cfg : MCPServerConfig) (a : ConnAttempt) : Bool :=
  if ¬ cfg.enabled then false
  else
    match a with
    | .startFail => false
    | .initFail => false
    | .ok _ => true
    | .raisedEx _ => false

/-- One `ServerStatus` entry of `MCPToolManager.server_status`. -/
structure ServerStatus where
  connected : Bool
  last_check : Option Nat
  error : Option String
  tools_count : Nat

/-- `connect_all_servers`'s status write for one finished future
(`mcp_tool_manager.py` lines 89-90): sets `connected` and `last_check` on
the server's existing status entry. Every configured server has an entry
(created by `__init__`/`add_server`), so the missing-entry branch is
unreachable and modelled as a no-op. -/
def recordResult (st : List (String × ServerStatus)) (name : String)
    (success : Bool) (now : Nat) : List (String × ServerStatus) :=
  match alookup st name with
  | some s => ainsert st name { s with connected := success, last_check := some now }
  | none => st

/-- `MCPToolManager.connect_all_servers` (`mcp_tool_manager.py` lines
74-103): one connect attempt per configured server (the pool bounds
parallelism but every submitted future is awaited), accumulating the result
dict and the status updates. The dict's Python insertion order is completion
order; the model uses submission order, which is the same map. -/
def connectAllServers (configs : List MCPServerConfig)
    (st0 : List (String × ServerStatus)) (a : String → ConnAttempt)
    (now : Nat) : List (String × Bool) × List (String × ServerStatus) :=
  configs.foldl
    (fun acc c =>
      let success := connectServerResult c (a c.name)
      (ainsert acc.1 c.name success, recordResult acc.2 c.name success now))
    ([], st0)

/-- Key under which a colliding tool is re-registered
(`mcp_tool_manager.py` line 151). -/
def prefKey (server tool : String) : String := server ++ "_" ++ tool

/-- Removal of a server's old tools from the aggregate registry
(`mcp_tool_manager.py` lines 139-142). -/
def removeServerTools (R : List (String × MCPTool)) (server : String) :
    List (String × MCPTool) :=
  R.filter (fun p => p.2.server_name ≠ server)

/-- Insertion of one fetched tool into the aggregate registry
(`mcp_tool_manager.py` lines 146-154): on a bare-name collision the key and
the tool's own `name` field are both rewritten to the prefixed form. -/
def addFetchedTool (server : String) (R : List (String × MCPTool))
    (t : MCPTool) : List (String × MCPTool) :=
  if hasKey R t.name then
    ainsert R (prefKey server t.name) { t with name := prefKey server t.name }
  else
    ainsert R t.name t

/-- The aggregate-registry effect of `MCPToolManager._update_tools_from_server`
(`mcp_tool_manager.py` lines 131-158): drop the server's old tools, then fold
the freshly fetched list through the collision rule. -/
def updateToolsRegistry (R : List (String × MCPTool)) (server : String)
    (fetched : List MCPTool) : List (String × MCPTool) :=
  fetched.foldl (addFetchedTool server) (removeServerTools R server)

/-- The state owned by one `MCPToolManager`. -/
structure ManagerState where
  server_configs : List MCPServerConfig
  clients : List (String × ClientState)
  all_tools : List (String × MCPTool)
  server_status : List (String × ServerStatus)

/-- `MCPToolManager.call_tool` (`mcp_tool_manager.py` lines 206-220):
registry lookup, then client lookup by the tool's owning server, then
delegation passing the *stored* tool's `name` field. The `Bool` component
records whether a client was invoked at all. -/
def managerCallTool (m : ManagerState) (w : String → ServerWire)
    (tool_name : String) (arguments : Json) :
    Except PyErr Json × ManagerState × Bool :=
  match alookup m.all_tools tool_name with
  | none => (.error (.valueError ("MCP 工具 " ++ tool_name ++ " 不存在")), m, false)
  | some tool =>
    match alookup m.clients tool.server_name with
    | none => (.error (.runtimeError ("MCP 服务器 " ++ tool.server_name ++ " 未连接")), m, false)
    | some cs =>
      let r := clientCallTool cs (w tool.server_name) tool.name arguments
      (r.1, { m with clients := ainsert m.clients tool.server_name r.2.1 }, true)

/-- `MCPToolManager.disconnect_all_servers` (`mcp_tool_manager.py` lines
160-172): every client is disconnected (`clientDisconnect`, which tolerates
an already-exited or absent process) and dropped, the aggregate registry is
cleared, and every status entry gets `connected := false`,
`tools_count := 0`. -/
def disconnectAllServers (m : ManagerState) : ManagerState :=
  { m with
    clients := [],
    all_tools := [],
    server_status := m.server_status.map
      (fun p => (p.1, { p.2 with connected := false, tools_count := 0 })) }

/-! Helper lemmas shared by the claim theorems. -/

theorem prefKey_ne_bare (server t : String) : prefKey server t ≠ t := by
  intro h
  have hd := congrArg (fun q => q.data.length) h
  simp [prefKey, String.data_append] at hd
  omega

theorem prefKey_inj (server : String) {x y : String}
    (h : prefKey server x = prefKey server y) : x = y := by
  have hd := congrArg String.data h
  simp only [prefKey, String.data_append, List.append_assoc] at hd
  exact String.ext (List.append_cancel_left (List.append_cancel_left hd))

theorem sendRequest_tools (c : ClientState) (w : ServerWire) (method : String)
    (params : Option Json) : (sendRequest c w method params).2.1.tools = c.tools := by
  unfold sendRequest
  by_cases h : c.processState = .alive
  · simp only [h]
    cases w (c.request_id + 1) method (params.getD (Json.obj [])) with
    | timeout => simp
    | emptyLineDead stderr => simp
    | emptyLineAlive => simp
    | invalidJson => simp
    | envelope i e r => cases e <;> simp
  · simp [h]

theorem sendRequest_is_connected (c : ClientState) (w : ServerWire)
    (method : String) (params : Option Json) :
    (sendRequest c w method params).2.1.is_connected = c.is_connected := by
  unfold sendRequest
  by_cases h : c.processState = .alive
  · simp only [h]
    cases w (c.request_id + 1) method (params.getD (Json.obj [])) with
    | timeout => simp
    | emptyLineDead stderr => simp
    | emptyLineAlive => simp
    | invalidJson => simp
    | envelope i e r => cases e <;> simp
  · simp [h]

/-! Concrete states used by witnesses and counterexamples. -/

/-- A wire that never answers within the timeout. -/
def silentWire : ServerWire := fun _ _ _ => .timeout

/-- A client whose subprocess handle is absent. -/
def noProcClient : ClientState :=
  { server_name := "files", timeout := 30, processState := .noProc,
    is_connected := false, tools := [], request_id := 0, last_heartbeat := none }

/-- A connected client with a live process and an empty tool dict. -/
def liveClient : ClientState :=
  { server_name := "files", timeout := 30, processState := .alive,
    is_connected := true, tools := [], request_id := 0, last_heartbeat := none }

/-!
Claim C10.
`send_request` checks `not self.process or self.process.poll() is not None`
before anything else (`mcp_client.py` lines 139-140): with no process handle
or an exited process it raises at once — the id counter is untouched, nothing
is written to the wire, and the whole client state is returned unchanged.
-/

/-- Claim C10: when the client's subprocess handle is absent or the process
has already exited, `send_request` raises before any I/O and leaves the
client state (request id, tool dict, `is_connected`) exactly as it was. -/
theorem c10_dead_process_guard (c : ClientState) (w : ServerWire)
    (method : String) (params : Option Json)
    (h : c.processState = .noProc ∨ c.processState = .exited) :
    sendRequest c w method params =
      (.error (.runtimeError ("MCP 服务器 " ++ c.server_name ++ " 未运行")), c, none) := by
  have hne : c.processState ≠ .alive := by
    rcases h with h | h <;> simp [h]
  simp [sendRequest, hne]

/-- Claim C10 witness: the guard at a concrete dead client. -/
theorem c10_dead_process_guard_witness :
    sendRequest noProcClient silentWire "tools/list" none =
      (.error (.runtimeError "MCP 服务器 files 未运行"), noProcClient, none) :=
  c10_dead_process_guard noProcClient silentWire "tools/list" none (Or.inl rfl)

/-!
Claim C9.
`disconnect_all_servers` (`mcp_tool_manager.py` lines 160-172) disconnects and
drops every client, clears the aggregate registry, and resets every status
entry's `connected`/`tools_count` — `clientDisconnect`/`clientStopServer`
tolerate a process that already exited on its own (`terminate` on a dead
process is harmless and the handler swallows any exception), so the result
holds for every starting state, exited subprocesses included.
-/

/-- Claim C9: after `disconnect_all_servers` the aggregate tool registry is
empty, no client remains, and every server status has `connected = false`
and `tools_count = 0`, whatever state (including already-exited processes)
the servers were in. -/
theorem c9_disconnect_all_clears (m : ManagerState) :
    (disconnectAllServers m).all_tools = [] ∧
    (disconnectAllServers m).clients = [] ∧
    (disconnectAllServers m).server_status.all
      (fun p => !p.2.connected && p.2.tools_count == 0) = true := by
  refine ⟨rfl, rfl, ?_⟩
  simp only [disconnectAllServers, List.all_map, List.all_eq_true]
  intro p _
  simp

/-!
Claim C5.
The spec's state machine says a failed request while Connected transitions
the client back to Disconnected. The code has no such transition: no path in
`send_request` (`mcp_client.py` lines 137-197) assigns `is_connected`; only
`stop_server`/`disconnect` clear it. After a timeout, a malformed response
or an RPC-level error the client still reports `is_connected = True`.
-/

/-- Claim C5 counterexample: a connected client whose request times out. The
call raises, yet `is_connected` is still `true` afterwards — the claim says
it must be `false`. -/
theorem c5_failed_request_keeps_connected_counterexample :
    liveClient.is_connected = true ∧
    (sendRequest liveClient silentWire "tools/call" none).1 =
      .error (.runtimeError "等待 MCP 服务器响应超时 (30秒)") ∧
    (sendRequest liveClient silentWire "tools/call" none).2.1.is_connected = true :=
  ⟨rfl, rfl, rfl⟩

/-- Claim C5 (amended): a failed `send_request` raises to the caller but
leaves `is_connected` exactly as it was — a Connected client stays marked
connected; only `stop_server`/`disconnect` ever clear the flag. -/
theorem c5_failed_request_state_amended (c : ClientState) (w : ServerWire)
    (method : String) (params : Option Json) (e : PyErr)
    (_hfail : (sendRequest c w method params).1 = .error e) :
    (sendRequest c w method params).2.1.is_connected = c.is_connected :=
  sendRequest_is_connected c w method params

/-- Claim C5 (amended) witness: the amended statement at the concrete
timed-out call. -/
theorem c5_failed_request_state_amended_witness :
    (sendRequest liveClient silentWire "tools/call" none).2.1.is_connected =
      liveClient.is_connected :=
  c5_failed_request_state_amended liveClient silentWire "tools/call" none
    (.runtimeError "等待 MCP 服务器响应超时 (30秒)") rfl

/-!
Claim C7.
`call_tool`'s unwrapping (`mcp_client.py` lines 284-293) does not return the
raw result in every non-text case: when `content` is present but empty or
not a list the code returns `str(content)` — a string rendering, not the raw
result — and when the first content item is not a dict it raises
`AttributeError`. Only a missing `content` key yields the raw result.
-/

/-- A `tools/call` result whose `content` is present but empty. -/
def emptyContentResult : Json := Json.obj [("content", Json.arr [])]

/-- Claim C7 counterexample: for the result with `content = []` the claim
demands the raw result unchanged, but the code returns the Python string
rendering `"[]"`, which is not that result. -/
theorem c7_unwrap_counterexample :
    unwrapResult emptyContentResult = .ok (Json.str "[]") ∧
    Json.str "[]" ≠ emptyContentResult := by
  refine ⟨rfl, ?_⟩
  intro h
  exact Json.noConfusion h

/-- Claim C7 (amended): on a result object, a missing `content` key returns
the raw result; a non-empty `content` list returns the first item's `text`
(its string rendering when the key is absent, `AttributeError` when the item
is not a dict, both via `pyGet`); any other present `content` — empty list
or non-list — returns its Python string rendering, not the raw result. -/
theorem c7_unwrap_amended (kvs : List (String × Json)) :
    (hasKey kvs "content" = false → unwrapResult (.obj kvs) = .ok (.obj kvs)) ∧
    (∀ x rest, alookup kvs "content" = some (.arr (x :: rest)) →
       unwrapResult (.obj kvs) = pyGet x "text" (Json.str (pyStr x))) ∧
    (∀ content, alookup kvs "content" = some content →
       (∀ x rest, content ≠ .arr (x :: rest)) →
       unwrapResult (.obj kvs) = .ok (.str (pyStr content))) := by
  refine ⟨?_, ?_, ?_⟩
  · intro h
    simp [unwrapResult, pyContains, h]
  · intro x rest h
    have hk : hasKey kvs "content" = true := by simp [hasKey, h]
    simp [unwrapResult, pyContains, hk, pySubscript, h]
  · intro content h hne
    have hk : hasKey kvs "content" = true := by simp [hasKey, h]
    simp only [unwrapResult, pyContains, hk, pySubscript, h]

/-- Claim C7 (amended) witness: the three amended cases at concrete
results — no `content` key, a one-item text `content`, and a string
`content`. -/
theorem c7_unwrap_amended_witness :
    unwrapResult (.obj [("value", Json.num 7)]) = .ok (.obj [("value", Json.num 7)]) ∧
    unwrapResult (.obj [("content", Json.arr [Json.obj [("text", Json.str "hi")]])]) =
      .ok (.str "hi") ∧
    unwrapResult (.obj [("content", Json.str "plain")]) = .ok (.str "plain") := by
  refine ⟨(c7_unwrap_amended [("value", Json.num 7)]).1 rfl, ?_, ?_⟩
  · have h := (c7_unwrap_amended [("content", Json.arr [Json.obj [("text", Json.str "hi")]])]).2.1
      (Json.obj [("text", Json.str "hi")]) [] rfl
    exact h.trans rfl
  · exact (c7_unwrap_amended [("content", Json.str "plain")]).2.2
      (Json.str "plain") rfl (fun x rest h => Json.noConfusion h)

/-!
Claim C2.
`_update_tools_from_server` renames a colliding tool by assigning
`tool.name = "{server}_{tool}"` on the same object that the owning client's
own `self.tools` dict still indexes under the bare fetched name. The
Manager's `call_tool` then delegates with `tool.name` — the prefixed
name — which the client's name check (`mcp_client.py` line 274) rejects, so
a collided tool can never be called through the Manager even though its
server is connected and the underlying tool works: the code defeats the very
purpose of the collision-renaming it performs. The registry value below for
key `B_search` reflects the mutated object, and client B's dict value is
that same mutated object under the bare key `search`.
-/

/-- Server A's `search` tool as fetched. -/
def searchToolA : MCPTool :=
  { name := "search", description := "", parameters := Json.obj [],
    server_name := "A", input_schema := Json.obj [] }

/-- Server B's `search` tool as fetched. -/
def searchToolB : MCPTool :=
  { name := "search", description := "", parameters := Json.obj [],
    server_name := "B", input_schema := Json.obj [] }

/-- Aggregate registry after A's list then B's list are merged: bare
`search` is A's, `B_search` is B's renamed tool. -/
def collidedRegistry : List (String × MCPTool) :=
  updateToolsRegistry (updateToolsRegistry [] "A" [searchToolA]) "B" [searchToolB]

/-- Client for server A, holding its fetched tool under the bare name. -/
def clientA : ClientState :=
  { server_name := "A", timeout := 30, processState := .alive,
    is_connected := true, tools := [("search", searchToolA)],
    request_id := 1, last_heartbeat := none }

/-- Client for server B: its dict key is the bare fetched name `search`,
while the stored object's `name` field was mutated to `B_search` by the
manager (the dict entry and the registry entry alias one object). -/
def clientB : ClientState :=
  { server_name := "B", timeout := 30, processState := .alive,
    is_connected := true,
    tools := [("search", { searchToolB with name := prefKey "B" "search" })],
    request_id := 1, last_heartbeat := none }

/-- A wire on which any `tools/call` succeeds with text content `RESULT`. -/
def toolCallWire : ServerWire := fun _ method _ =>
  if method = "tools/call" then
    .envelope (some 1) none
      (some (Json.obj [("content", Json.arr [Json.obj [("text", Json.str "RESULT")]])]))
  else .envelope (some 1) none none

/-- The manager with both servers connected and the collided registry. -/
def collidedManager : ManagerState :=
  { server_configs := [], clients := [("A", clientA), ("B", clientB)],
    all_tools := collidedRegistry, server_status := [] }

/-- Claim C2 (code bug): the collided name `B_search` is registered to
connected server B, and B's `search` tool genuinely returns `RESULT` when
the client is asked for it by its bare name — yet `call_tool("B_search")`
raises `ValueError` from B's client name check instead of returning that
value, because the manager delegates with the prefixed name the client does
not know. -/
theorem c2_collided_name_call_fails :
    alookup collidedRegistry "B_search" =
      some { searchToolB with name := prefKey "B" "search" } ∧
    (managerCallTool collidedManager (fun _ => toolCallWire) "B_search" (Json.obj [])).1 =
      .error (.valueError "工具 B_search 不存在") ∧
    (clientCallTool clientB toolCallWire "search" (Json.obj [])).1 =
      .ok (Json.str "RESULT") :=
  ⟨rfl, rfl, rfl⟩

/-!
Claim C4.
`get_next_request_id` (`mcp_client.py` lines 50-53) increments the
connection-private counter and returns it, so two sequential `send_request`
calls allocate `request_id + 1` and `request_id + 2`. The code reads exactly
one response line per request in lockstep; for a JSON-RPC-compliant server —
one that answers the request carrying id `n` with an envelope whose `id` is
`n` — the envelope each call consumes is therefore exactly the one whose id
equals that call's request id.
-/

/-- The request id recorded for a `send_request` run, when the request was
written. -/
def sentId (r : Except PyErr Json × ClientState × Option (Nat × WireOutcome)) :
    Option Nat :=
  r.2.2.map Prod.fst

/-- The envelope id of the response a `send_request` run consumed. -/
def consumedEnvelopeId
    (r : Except PyErr Json × ClientState × Option (Nat × WireOutcome)) :
    Option Int :=
  match r.2.2 with
  | some (_, o) => envelopeId o
  | none => none

theorem sendRequest_alive_envelope (c : ClientState) (w : ServerWire)
    (method : String) (params : Option Json) (i : Option Int)
    (err : Option String) (r : Option Json)
    (halive : c.processState = .alive)
    (hw : w (c.request_id + 1) method (params.getD (Json.obj [])) =
            .envelope i err r) :
    (sendRequest c w method params).2.2 =
      some (c.request_id + 1, .envelope i err r) ∧
    (sendRequest c w method params).2.1.request_id = c.request_id + 1 ∧
    (sendRequest c w method params).2.1.processState = .alive := by
  unfold sendRequest
  simp only [halive, hw]
  cases err <;> simp [halive]

theorem wire_is_envelope (w : ServerWire) (n : Nat) (method : String)
    (params : Json) (hwire : envelopeId (w n method params) = some (Int.ofNat n)) :
    ∃ err r, w n method params =
      .envelope (some (Int.ofNat n)) err r := by
  cases hw : w n method params with
  | timeout => rw [hw] at hwire; simp [envelopeId] at hwire
  | emptyLineDead s => rw [hw] at hwire; simp [envelopeId] at hwire
  | emptyLineAlive => rw [hw] at hwire; simp [envelopeId] at hwire
  | invalidJson => rw [hw] at hwire; simp [envelopeId] at hwire
  | envelope i err r =>
    rw [hw] at hwire
    simp [envelopeId] at hwire
    refine ⟨err, r, ?_⟩
    rw [hwire]
    rfl

/-- Claim C4: on one connection, two sequential `send_request` calls against
a compliant server (every response envelope echoes its request's id)
allocate strictly increasing request ids from the private counter, and each
call consumes exactly the envelope whose id equals the id of the request
that produced it. -/
theorem c4_sequential_ids (c : ClientState) (w : ServerWire) (m1 m2 : String)
    (p1 p2 : Option Json)
    (halive : c.processState = .alive)
    (hwire : ∀ n method params, envelopeId (w n method params) = some (Int.ofNat n)) :
    sentId (sendRequest c w m1 p1) = some (c.request_id + 1) ∧
    sentId (sendRequest (sendRequest c w m1 p1).2.1 w m2 p2) =
      some (c.request_id + 2) ∧
    c.request_id + 1 < c.request_id + 2 ∧
    consumedEnvelopeId (sendRequest c w m1 p1) =
      some (Int.ofNat (c.request_id + 1)) ∧
    consumedEnvelopeId (sendRequest (sendRequest c w m1 p1).2.1 w m2 p2) =
      some (Int.ofNat (c.request_id + 2)) := by
  obtain ⟨err1, r1, hw1⟩ :=
    wire_is_envelope w (c.request_id + 1) m1 (p1.getD (Json.obj []))
      (hwire (c.request_id + 1) m1 (p1.getD (Json.obj [])))
  obtain ⟨hsent1, hrid1, halive1⟩ :=
    sendRequest_alive_envelope c w m1 p1 _ err1 r1 halive hw1
  obtain ⟨err2, r2, hw2⟩ :=
    wire_is_envelope w (c.request_id + 2) m2 (p2.getD (Json.obj []))
      (hwire (c.request_id + 2) m2 (p2.getD (Json.obj [])))
  have hw2' : w ((sendRequest c w m1 p1).2.1.request_id + 1) m2
      (p2.getD (Json.obj [])) = .envelope (some (Int.ofNat (c.request_id + 2))) err2 r2 := by
    rw [hrid1]; exact hw2
  obtain ⟨hsent2, hrid2, _⟩ :=
    sendRequest_alive_envelope (sendRequest c w m1 p1).2.1 w m2 p2 _ err2 r2
      halive1 hw2'
  refine ⟨?_, ?_, by omega, ?_, ?_⟩
  · simp [sentId, hsent1]
  · rw [hrid1] at hsent2
    simp [sentId, hsent2]
  · simp [consumedEnvelopeId, hsent1, envelopeId]
  · rw [hrid1] at hsent2
    simp [consumedEnvelopeId, hsent2, envelopeId]

/-- A compliant server that echoes each request's id in its envelope. -/
def idEchoWire : ServerWire := fun n _ _ => .envelope (some (Int.ofNat n)) none none

/-- Claim C4 witness: the id allocation and matching at a concrete connected
client and echoing server. -/
theorem c4_sequential_ids_witness :
    sentId (sendRequest liveClient idEchoWire "initialize" none) =
      some (liveClient.request_id + 1) ∧
    sentId (sendRequest (sendRequest liveClient idEchoWire "initialize" none).2.1
        idEchoWire "tools/list" none) = some (liveClient.request_id + 2) ∧
    liveClient.request_id + 1 < liveClient.request_id + 2 ∧
    consumedEnvelopeId (sendRequest liveClient idEchoWire "initialize" none) =
      some (Int.ofNat (liveClient.request_id + 1)) ∧
    consumedEnvelopeId (sendRequest (sendRequest liveClient idEchoWire "initialize" none).2.1
        idEchoWire "tools/list" none) = some (Int.ofNat (liveClient.request_id + 2)) :=
  c4_sequential_ids liveClient idEchoWire "initialize" "tools/list" none none rfl
    (fun _ _ _ => rfl)

/-!
Claim C6.
The spec (and its design note) say the `tools/list` fallback inside `ping`
overwrites the stored tool registry. It does not: `ping` calls
`self.send_request("tools/list")` directly (`mcp_client.py` line 311), not
`self.list_tools()`, so the response is used purely as a liveness signal and
`self.tools` is left exactly as it was.
-/

/-- A tool stored from an earlier fetch. -/
def oldTool : MCPTool :=
  { name := "old_tool", description := "", parameters := Json.obj [],
    server_name := "files", input_schema := Json.obj [] }

/-- A connected client whose stored tool dict holds `old_tool`. -/
def stockedClient : ClientState :=
  { server_name := "files", timeout := 30, processState := .alive,
    is_connected := true, tools := [("old_tool", oldTool)],
    request_id := 0, last_heartbeat := none }

/-- A `tools/list` result advertising a different tool, `new_tool`. -/
def freshListResult : Json :=
  Json.obj [("tools", Json.arr [Json.obj [("name", Json.str "new_tool")]])]

/-- A server without `ping`: the ping request gets a method-not-found error,
any other request gets the fresh tool list. -/
def noPingWire : ServerWire := fun _ method _ =>
  if method = "ping" then .envelope (some 1) (some "Method not found") none
  else .envelope (some 2) none (some freshListResult)

/-- Claim C6 counterexample: the fallback ping succeeds, the server's fresh
list names `new_tool`, yet the client's stored tool set still holds exactly
the old registry — not the freshly fetched list the claim requires. -/
theorem c6_fallback_ping_counterexample :
    (ping stockedClient noPingWire 5).1 = true ∧
    (ping stockedClient noPingWire 5).2.tools = [("old_tool", oldTool)] ∧
    (toolsOfListResult "files" freshListResult).map (fun t => t.name) = ["new_tool"] ∧
    (ping stockedClient noPingWire 5).2.tools.map Prod.fst ≠
      (toolsOfListResult "files" freshListResult).map (fun t => t.name) := by
  refine ⟨rfl, rfl, rfl, ?_⟩
  decide

/-- Claim C6 (amended): when `ping` falls back to `tools/list` because the
server reported the ping method as not found, and the fallback request
succeeds, the ping reports success and the client's stored tool set is left
unchanged — the fallback is a pure liveness probe with no registry side
effect. -/
theorem c6_fallback_ping_amended (c : ClientState) (w : ServerWire) (now : Nat)
    (e : PyErr) (r : Json)
    (h0 : c.processState = .alive)
    (h1 : (sendRequest c w "ping" none).1 = .error e)
    (h2 : methodNotFoundErr e = true)
    (h3 : (sendRequest (sendRequest c w "ping" none).2.1 w "tools/list" none).1 = .ok r) :
    (ping c w now).1 = true ∧ (ping c w now).2.tools = c.tools := by
  have htools1 := sendRequest_tools c w "ping" none
  unfold ping
  rw [if_neg (by simp [h0])]
  rcases hs1 : sendRequest c w "ping" none with ⟨r1, c1, o1⟩
  have htools2 := sendRequest_tools c1 w "tools/list" none
  rw [hs1] at h1 h3 htools1
  simp only at h1
  subst h1
  simp only [h2, if_true]
  rcases hs2 : sendRequest c1 w "tools/list" none with ⟨r2, c2, o2⟩
  rw [hs2] at h3 htools2
  simp only at h3 htools1 htools2
  cases r2 with
  | error e2 => exact absurd h3 (by simp)
  | ok v =>
    refine ⟨rfl, ?_⟩
    simp only
    rw [htools2, htools1]

/-- Claim C6 (amended) witness: the amended statement at the concrete
stocked client and ping-less server. -/
theorem c6_fallback_ping_amended_witness :
    (ping stockedClient noPingWire 5).1 = true ∧
    (ping stockedClient noPingWire 5).2.tools = stockedClient.tools :=
  c6_fallback_ping_amended stockedClient noPingWire 5
    (.runtimeError "MCP 错误: Method not found") freshListResult rfl rfl rfl rfl

/-!
Claim C8.
`MCPToolManager.call_tool` (`mcp_tool_manager.py` lines 206-220) checks the
aggregate registry first — an unknown name raises the tool-not-found
`ValueError` with no client (hence no subprocess) involved — then requires
the owning server to be present in the manager's client map (its notion of
"currently connected"), and only then delegates to that client.
-/

/-- Claim C8: `call_tool` raises tool-not-found without touching any client
for unregistered names, raises server-not-connected when the owning server
has no client in the manager's map, and delegates to the owning client
exactly when the name is registered and its owner's client is present. -/
theorem c8_manager_call_tool_dispatch (m : ManagerState)
    (w : String → ServerWire) (name : String) (args : Json) :
    (alookup m.all_tools name = none →
       managerCallTool m w name args =
         (.error (.valueError ("MCP 工具 " ++ name ++ " 不存在")), m, false)) ∧
    (∀ t, alookup m.all_tools name = some t →
       alookup m.clients t.server_name = none →
       managerCallTool m w name args =
         (.error (.runtimeError ("MCP 服务器 " ++ t.server_name ++ " 未连接")), m, false)) ∧
    (∀ t cs, alookup m.all_tools name = some t →
       alookup m.clients t.server_name = some cs →
       (managerCallTool m w name args).2.2 = true ∧
       (managerCallTool m w name args).1 =
         (clientCallTool cs (w t.server_name) t.name args).1) := by
  refine ⟨?_, ?_, ?_⟩
  · intro h
    simp [managerCallTool, h]
  · intro t h1 h2
    simp [managerCallTool, h1, h2]
  · intro t cs h1 h2
    simp [managerCallTool, h1, h2]

/-- A registered tool whose owning server `A` has a client. -/
def echoTool : MCPTool :=
  { name := "echo", description := "", parameters := Json.obj [],
    server_name := "A", input_schema := Json.obj [] }

/-- A registered tool whose owning server `Z` has no client. -/
def ghostTool : MCPTool :=
  { name := "ghost", description := "", parameters := Json.obj [],
    server_name := "Z", input_schema := Json.obj [] }

/-- The client for server `A`, knowing `echo`. -/
def clientEcho : ClientState :=
  { server_name := "A", timeout := 30, processState := .alive,
    is_connected := true, tools := [("echo", echoTool)],
    request_id := 0, last_heartbeat := none }

/-- A manager with one connected server `A` and a stale registry entry for
server `Z`. -/
def dispatchManager : ManagerState :=
  { server_configs := [], clients := [("A", clientEcho)],
    all_tools := [("echo", echoTool), ("ghost", ghostTool)],
    server_status := [] }

/-- Claim C8 witness: the three dispatch outcomes at concrete inputs — an
unregistered name, a name owned by a clientless server, and a deliverable
name. -/
theorem c8_manager_call_tool_dispatch_witness :
    managerCallTool dispatchManager (fun _ => silentWire) "nope" (Json.obj []) =
      (.error (.valueError "MCP 工具 nope 不存在"), dispatchManager, false) ∧
    managerCallTool dispatchManager (fun _ => silentWire) "ghost" (Json.obj []) =
      (.error (.runtimeError "MCP 服务器 Z 未连接"), dispatchManager, false) ∧
    (managerCallTool dispatchManager (fun _ => silentWire) "echo" (Json.obj [])).2.2 = true ∧
    (managerCallTool dispatchManager (fun _ => silentWire) "echo" (Json.obj [])).1 =
      (clientCallTool clientEcho silentWire "echo" (Json.obj [])).1 := by
  have h := c8_manager_call_tool_dispatch dispatchManager (fun _ => silentWire)
  refine ⟨(h "nope" (Json.obj [])).1 rfl, ?_, ?_, ?_⟩
  · exact (h "ghost" (Json.obj [])).2.1 ghostTool rfl rfl
  · exact ((h "echo" (Json.obj [])).2.2 echoTool clientEcho rfl rfl).1
  · exact ((h "echo" (Json.obj [])).2.2 echoTool clientEcho rfl rfl).2

/-!
Claim C3.
`connect_all_servers` iterates over `self.server_configs` — all configured
servers, not only the enabled ones (`mcp_tool_manager.py` line 81). A
disabled server therefore also gets a result entry (its `MCPClient.connect`
returns `False` at the enabled check), contradicting the claim's "one entry
per configured-enabled server and no others". The failure-isolation half of
the claim holds: every per-server failure (including a raised exception,
caught by `_connect_server`'s and `connect`'s handlers) is recorded as that
server's own `False` entry and status, and never disturbs the other
servers' entries.
-/

theorem alookup_append {α : Type} (A B : List (String × α)) (k : String) :
    alookup (A ++ B) k = (alookup A k).or (alookup B k) := by
  induction A with
  | nil => simp [alookup]
  | cons p rest ih =>
    by_cases h : p.1 = k
    · simp [alookup, h]
    · simp [alookup, h, ih]

theorem hasKey_append {α : Type} (A B : List (String × α)) (k : String) :
    hasKey (A ++ B) k = (hasKey A k || hasKey B k) := by
  simp [hasKey, alookup_append]

theorem ainsert_not_hasKey {α : Type} (R : List (String × α)) (k : String)
    (v : α) (h : hasKey R k = false) : ainsert R k v = R ++ [(k, v)] := by
  induction R with
  | nil => simp [ainsert]
  | cons p rest ih =>
    have hp : p.1 ≠ k := by
      intro he
      simp [hasKey, alookup, he] at h
    have hr : hasKey rest k = false := by
      simp [hasKey, alookup, hp] at h
      simp [hasKey, h]
    simp [ainsert, hp, ih hr]

theorem connectAll_fst (configs : List MCPServerConfig)
    (st0 : List (String × ServerStatus)) (a : String → ConnAttempt) (now : Nat) :
    (connectAllServers configs st0 a now).1 =
      configs.foldl
        (fun acc c => ainsert acc c.name (connectServerResult c (a c.name))) [] := by
  suffices h : ∀ (l : List MCPServerConfig) (R : List (String × Bool))
      (st : List (String × ServerStatus)),
      (l.foldl
        (fun acc c =>
          (ainsert acc.1 c.name (connectServerResult c (a c.name)),
           recordResult acc.2 c.name (connectServerResult c (a c.name)) now))
        (R, st)).1 =
      l.foldl (fun acc c => ainsert acc c.name (connectServerResult c (a c.name))) R by
    exact h configs [] st0
  intro l
  induction l with
  | nil => intro R st; rfl
  | cons c rest ih =>
    intro R st
    simp only [List.foldl_cons]
    exact ih _ _

theorem connectAll_snd (configs : List MCPServerConfig)
    (st0 : List (String × ServerStatus)) (a : String → ConnAttempt) (now : Nat) :
    (connectAllServers configs st0 a now).2 =
      configs.foldl
        (fun st c => recordResult st c.name (connectServerResult c (a c.name)) now)
        st0 := by
  suffices h : ∀ (l : List MCPServerConfig) (R : List (String × Bool))
      (st : List (String × ServerStatus)),
      (l.foldl
        (fun acc c =>
          (ainsert acc.1 c.name (connectServerResult c (a c.name)),
           recordResult acc.2 c.name (connectServerResult c (a c.name)) now))
        (R, st)).2 =
      l.foldl
        (fun st c => recordResult st c.name (connectServerResult c (a c.name)) now) st by
    exact h configs [] st0
  intro l
  induction l with
  | nil => intro R st; rfl
  | cons c rest ih =>
    intro R st
    simp only [List.foldl_cons]
    exact ih _ _

theorem foldl_ainsert_eq_append (F : MCPServerConfig → Bool) :
    ∀ (l : List MCPServerConfig) (R0 : List (String × Bool)),
    (∀ c ∈ l, hasKey R0 c.name = false) →
    (l.map (fun c => c.name)).Nodup →
    l.foldl (fun acc c => ainsert acc c.name (F c)) R0 =
      R0 ++ l.map (fun c => (c.name, F c)) := by
  intro l
  induction l with
  | nil => intro R0 _ _; simp
  | cons c rest ih =>
    intro R0 hfresh hnd
    simp only [List.map_cons, List.nodup_cons, List.mem_map] at hnd
    simp only [List.foldl_cons]
    rw [ainsert_not_hasKey R0 c.name (F c) (hfresh c (by simp))]
    have hfresh' : ∀ c' ∈ rest, hasKey (R0 ++ [(c.name, F c)]) c'.name = false := by
      intro c' hc'
      have h1 : hasKey R0 c'.name = false := hfresh c' (by simp [hc'])
      have h2 : c.name ≠ c'.name := by
        intro he
        exact hnd.1 ⟨c', hc', he.symm⟩
      have h1' : alookup R0 c'.name = none := by
        unfold hasKey at h1
        cases halo : alookup R0 c'.name with
        | none => rfl
        | some v => rw [halo] at h1; simp at h1
      rw [hasKey_append]
      simp [hasKey, alookup, h2, h1']
    rw [ih (R0 ++ [(c.name, F c)]) hfresh' hnd.2]
    simp

theorem hasKey_recordResult {st : List (String × ServerStatus)} {k : String}
    (n : String) (v : Bool) (now : Nat) (h : hasKey st k = true) :
    hasKey (recordResult st n v now) k = true := by
  unfold recordResult
  cases hn : alookup st n with
  | none => exact h
  | some s =>
    rcases (hasKey_ainsert_iff st n k _).mpr (Or.inr h) with hh
    exact hh

theorem alookup_recordResult_other {st : List (String × ServerStatus)}
    {k : String} (n : String) (v : Bool) (now : Nat) (h : k ≠ n) :
    alookup (recordResult st n v now) k = alookup st k := by
  unfold recordResult
  cases hn : alookup st n with
  | none => rfl
  | some s => exact alookup_ainsert_other st n k _ h

theorem fold_recordResult_other (F : MCPServerConfig → Bool) (now : Nat)
    (k : String) :
    ∀ (l : List MCPServerConfig) (st : List (String × ServerStatus)),
    (∀ c ∈ l, c.name ≠ k) →
    alookup (l.foldl (fun st c => recordResult st c.name (F c) now) st) k =
      alookup st k := by
  intro l
  induction l with
  | nil => intro st _; rfl
  | cons c rest ih =>
    intro st h
    simp only [List.foldl_cons]
    rw [ih _ (fun c' hc' => h c' (by simp [hc']))]
    exact alookup_recordResult_other c.name (F c) now (fun he => h c (by simp) he.symm)

theorem fold_recordResult_connected (F : MCPServerConfig → Bool) (now : Nat) :
    ∀ (l : List MCPServerConfig) (st : List (String × ServerStatus)),
    (∀ c ∈ l, hasKey st c.name = true) →
    (l.map (fun c => c.name)).Nodup →
    ∀ c ∈ l,
      (alookup (l.foldl (fun st c => recordResult st c.name (F c) now) st) c.name).map
          (fun s => s.connected) = some (F c) := by
  intro l
  induction l with
  | nil => intro st _ _ c hc; simp at hc
  | cons c0 rest ih =>
    intro st hst hnd c hc
    simp only [List.map_cons, List.nodup_cons, List.mem_map] at hnd
    simp only [List.foldl_cons]
    rcases List.mem_cons.mp hc with rfl | hc
    · obtain ⟨s, hs⟩ := Option.isSome_iff_exists.mp
        ((hasKey_true_iff st c.name).mp (hst c (by simp)))
      rw [fold_recordResult_other F now c.name rest _
        (fun c' hc' => fun he => hnd.1 ⟨c', hc', he⟩)]
      unfold recordResult
      rw [hs, alookup_ainsert_self]
      rfl
    · have hst' : ∀ c' ∈ rest, hasKey (recordResult st c0.name (F c0) now) c'.name = true :=
        fun c' hc' => hasKey_recordResult c0.name (F c0) now (hst c' (by simp [hc']))
      exact ih _ hst' hnd.2 c hc

/-- Default status entry created by the manager's `__init__` for a
configured server. -/
def freshStatus : ServerStatus :=
  { connected := false, last_check := none, error := none, tools_count := 0 }

/-- A configured but disabled server. -/
def disabledConfig : MCPServerConfig :=
  { name := "web", command := ["web-mcp"], enabled := false }

/-- Claim C3 counterexample: with a single *disabled* configured server the
claim requires an empty result map (one entry per configured-enabled server
and no others), but `connect_all_servers` returns an entry for the disabled
server as well. -/
theorem c3_disabled_server_entry_counterexample :
    (connectAllServers [disabledConfig] [("web", freshStatus)]
        (fun _ => .ok []) 0).1 = [("web", false)] ∧
    disabledConfig.enabled = false ∧
    [("web", false)] ≠ ([] : List (String × Bool)) := by
  refine ⟨rfl, rfl, ?_⟩
  decide

/-- Claim C3 (amended): `connect_all_servers` returns exactly one boolean
entry per *configured* server — enabled or not (a disabled server
contributes a `False` entry) — each entry being that server's own connect
outcome (exceptions included, caught and recorded as `False`) independent of
every other server's outcome, and it records each outcome in that server's
status entry; it never raises. -/
theorem c3_connect_all_amended (configs : List MCPServerConfig)
    (st0 : List (String × ServerStatus)) (a : String → ConnAttempt) (now : Nat)
    (hnd : (configs.map (fun c => c.name)).Nodup)
    (hst : ∀ c ∈ configs, hasKey st0 c.name = true) :
    (connectAllServers configs st0 a now).1 =
      configs.map (fun c => (c.name, connectServerResult c (a c.name))) ∧
    ∀ c ∈ configs,
      (alookup (connectAllServers configs st0 a now).2 c.name).map
          (fun s => s.connected) = some (connectServerResult c (a c.name)) := by
  constructor
  · rw [connectAll_fst configs st0 a now,
      foldl_ainsert_eq_append (fun c => connectServerResult c (a c.name)) configs []
        (fun c _ => rfl) hnd]
    simp
  · intro c hc
    rw [connectAll_snd configs st0 a now]
    exact fold_recordResult_connected (fun c => connectServerResult c (a c.name))
      now configs st0 hst hnd c hc

/-- An enabled server that will connect successfully. -/
def goodConfig : MCPServerConfig :=
  { name := "files", command := ["files-mcp"] }

/-- An enabled server whose connect attempt raises. -/
def badConfig : MCPServerConfig :=
  { name := "db", command := ["db-mcp"] }

/-- Connect outcomes: `files` succeeds, `db` raises, anything else fails to
start. -/
def mixedAttempts : String → ConnAttempt := fun n =>
  if n = "files" then .ok [] else if n = "db" then .raisedEx "boom" else .startFail

/-- Claim C3 (amended) witness: a successful, a raising and a disabled
server each get exactly their own entry, and each status records its own
outcome. -/
theorem c3_connect_all_amended_witness :
    (connectAllServers [goodConfig, badConfig, disabledConfig]
        [("files", freshStatus), ("db", freshStatus), ("web", freshStatus)]
        mixedAttempts 7).1 =
      [("files", true), ("db", false), ("web", false)] ∧
    (alookup (connectAllServers [goodConfig, badConfig, disabledConfig]
        [("files", freshStatus), ("db", freshStatus), ("web", freshStatus)]
        mixedAttempts 7).2 "db").map (fun s => s.connected) = some false := by
  have h := c3_connect_all_amended [goodConfig, badConfig, disabledConfig]
    [("files", freshStatus), ("db", freshStatus), ("web", freshStatus)]
    mixedAttempts 7 (by decide) (by decide)
  refine ⟨h.1.trans rfl, ?_⟩
  exact h.2 badConfig (by simp)

/-!
Claim C1.
`_update_tools_from_server` first deletes the fetched server's old entries
(so every surviving bare name belongs to a *different* server), then walks
the fresh list: a tool whose bare name is still taken is stored under
`"{server}_{tool}"` — with the object's own `name` rewritten — while the
existing owner of the bare name is untouched; a free bare name is stored
as-is. The registry is a pure function of the prior registry, the server
name and the fetched list, so a fixed connection order determines the key
set. The hypotheses below rule out the degenerate inputs the claim does not
speak about: duplicate names inside one fetch, and prefixed keys that
themselves collide.
-/

theorem alookup_addFetchedTool_other (server : String)
    (A : List (String × MCPTool)) (t : MCPTool) (k : String)
    (h1 : k ≠ t.name) (h2 : k ≠ prefKey server t.name) :
    alookup (addFetchedTool server A t) k = alookup A k := by
  unfold addFetchedTool
  by_cases hc : hasKey A t.name
  · simp only [hc, if_true]
    exact alookup_ainsert_other A _ k _ h2
  · simp only [hc, Bool.false_eq_true, if_false]
    exact alookup_ainsert_other A _ k _ h1

theorem hasKey_addFetchedTool_other (server : String)
    (A : List (String × MCPTool)) (t : MCPTool) (k : String)
    (h1 : k ≠ t.name) (h2 : k ≠ prefKey server t.name) :
    hasKey (addFetchedTool server A t) k = hasKey A k := by
  simp [hasKey, alookup_addFetchedTool_other server A t k h1 h2]

theorem fold_addFetchedTool_other (server : String) (k : String) :
    ∀ (ts : List MCPTool) (A : List (String × MCPTool)),
    (∀ t ∈ ts, k ≠ t.name ∧ k ≠ prefKey server t.name) →
    alookup (ts.foldl (addFetchedTool server) A) k = alookup A k := by
  intro ts
  induction ts with
  | nil => intro A _; rfl
  | cons t rest ih =>
    intro A h
    simp only [List.foldl_cons]
    rw [ih _ (fun t' ht' => h t' (by simp [ht']))]
    exact alookup_addFetchedTool_other server A t k (h t (by simp)).1 (h t (by simp)).2

theorem updateTools_aux (server : String) :
    ∀ (ts : List MCPTool) (A : List (String × MCPTool)),
    (ts.map (fun t => t.name)).Nodup →
    (∀ t ∈ ts, hasKey A (prefKey server t.name) = false ∧
               prefKey server t.name ∉ ts.map (fun t => t.name)) →
    ∀ t ∈ ts,
      (hasKey A t.name = true →
         alookup (ts.foldl (addFetchedTool server) A) (prefKey server t.name) =
           some { t with name := prefKey server t.name } ∧
         alookup (ts.foldl (addFetchedTool server) A) t.name = alookup A t.name) ∧
      (hasKey A t.name = false →
         alookup (ts.foldl (addFetchedTool server) A) t.name = some t) := by
  intro ts
  induction ts with
  | nil => intro A _ _ t ht; simp at ht
  | cons t0 rest ih =>
    intro A hnd hfresh t ht
    have hnd' := hnd
    simp only [List.map_cons, List.nodup_cons, List.mem_map] at hnd'
    have hpref0 := (hfresh t0 (by simp)).2
    simp only [List.map_cons, List.mem_cons, List.mem_map] at hpref0
    push_neg at hpref0
    simp only [List.foldl_cons]
    rcases List.mem_cons.mp ht with rfl | ht
    · -- the head tool t0 itself
      have hlater : ∀ t' ∈ rest, t.name ≠ t'.name ∧ t.name ≠ prefKey server t'.name := by
        intro t' ht'
        constructor
        · intro he
          exact hnd'.1 ⟨t', ht', he.symm⟩
        · intro he
          have := (hfresh t' (by simp [ht'])).2
          simp only [List.map_cons, List.mem_cons, List.mem_map] at this
          push_neg at this
          exact this.1 he.symm
      have hlaterPref : ∀ t' ∈ rest,
          prefKey server t.name ≠ t'.name ∧
          prefKey server t.name ≠ prefKey server t'.name := by
        intro t' ht'
        constructor
        · intro he
          exact hpref0.2 t' ht' he.symm
        · intro he
          exact hnd'.1 ⟨t', ht', (prefKey_inj server he).symm⟩
      constructor
      · intro hcol
        have hA1 : addFetchedTool server A t =
            ainsert A (prefKey server t.name) { t with name := prefKey server t.name } := by
          simp [addFetchedTool, hcol]
        constructor
        · rw [fold_addFetchedTool_other server _ rest _ hlaterPref]
          rw [hA1, alookup_ainsert_self]
        · rw [fold_addFetchedTool_other server _ rest _ hlater]
          rw [hA1]
          exact alookup_ainsert_other A _ t.name _ (Ne.symm (prefKey_ne_bare server t.name))
      · intro hnocol
        have hA1 : addFetchedTool server A t = ainsert A t.name t := by
          simp [addFetchedTool, hnocol]
        rw [fold_addFetchedTool_other server _ rest _ hlater]
        rw [hA1, alookup_ainsert_self]
    · -- a tool in the tail
      have hne0 : t.name ≠ t0.name := by
        intro he
        exact hnd'.1 ⟨t, ht, he⟩
      have hnepref0 : t.name ≠ prefKey server t0.name := by
        intro he
        exact hpref0.2 t ht he
      have hstep : hasKey (addFetchedTool server A t0) t.name = hasKey A t.name :=
        hasKey_addFetchedTool_other server A t0 t.name hne0 hnepref0
      have hfresh' : ∀ t' ∈ rest,
          hasKey (addFetchedTool server A t0) (prefKey server t'.name) = false ∧
          prefKey server t'.name ∉ rest.map (fun t => t.name) := by
        intro t' ht'
        have hf := hfresh t' (by simp [ht'])
        have hfm := hf.2
        simp only [List.map_cons, List.mem_cons, List.mem_map] at hfm
        push_neg at hfm
        refine ⟨?_, ?_⟩
        · rw [hasKey_addFetchedTool_other server A t0 _ (fun he => hfm.1 he)
            (fun he => hnd'.1 ⟨t', ht', prefKey_inj server he⟩)]
          exact hf.1
        · intro hm
          simp only [List.mem_map] at hm
          obtain ⟨u, hu, he⟩ := hm
          exact hfm.2 u hu he
      have ihres := ih (addFetchedTool server A t0) hnd'.2 hfresh' t ht
      constructor
      · intro hcol
        have hcol' : hasKey (addFetchedTool server A t0) t.name = true := by
          rw [hstep]; exact hcol
        refine ⟨(ihres.1 hcol').1, ?_⟩
        rw [(ihres.1 hcol').2]
        exact alookup_addFetchedTool_other server A t0 t.name hne0 hnepref0
      · intro hnocol
        have hnocol' : hasKey (addFetchedTool server A t0) t.name = false := by
          rw [hstep]; exact hnocol
        exact ihres.2 hnocol'

/-- Claim C1: after a server's tool list is (re)fetched into the aggregate
registry, every surviving bare-name entry belongs to a different server than
the fetched one, and each incoming tool whose bare name is taken by such an
entry is inserted under the `"{server}_{tool}"` key (with the stored tool
renamed accordingly) while the bare name keeps its previous binding; an
incoming tool with a free bare name is inserted as-is. The registry being a
pure function of its inputs, a fixed connection order yields a deterministic
key set. -/
theorem c1_collision_insertion (R : List (String × MCPTool)) (server : String)
    (fetched : List MCPTool)
    (hnd : (fetched.map (fun t => t.name)).Nodup)
    (hfresh : ∀ t ∈ fetched,
        hasKey (removeServerTools R server) (prefKey server t.name) = false ∧
        prefKey server t.name ∉ fetched.map (fun t => t.name)) :
    (∀ p ∈ removeServerTools R server, p.2.server_name ≠ server) ∧
    ∀ t ∈ fetched,
      (hasKey (removeServerTools R server) t.name = true →
         alookup (updateToolsRegistry R server fetched) (prefKey server t.name) =
           some { t with name := prefKey server t.name } ∧
         alookup (updateToolsRegistry R server fetched) t.name =
           alookup (removeServerTools R server) t.name) ∧
      (hasKey (removeServerTools R server) t.name = false →
         alookup (updateToolsRegistry R server fetched) t.name = some t) := by
  constructor
  · intro p hp
    unfold removeServerTools at hp
    simp only [List.mem_filter, decide_eq_true_eq] at hp
    exact hp.2
  · exact updateTools_aux server fetched (removeServerTools R server) hnd hfresh

/-- Server `alpha`'s `search` tool, registered first. -/
def alphaSearch : MCPTool :=
  { name := "search", description := "", parameters := Json.obj [],
    server_name := "alpha", input_schema := Json.obj [] }

/-- Server `beta`'s `search` tool, fetched second. -/
def betaSearch : MCPTool :=
  { name := "search", description := "", parameters := Json.obj [],
    server_name := "beta", input_schema := Json.obj [] }

/-- Server `beta`'s `upload` tool, whose bare name is free. -/
def betaUpload : MCPTool :=
  { name := "upload", description := "", parameters := Json.obj [],
    server_name := "beta", input_schema := Json.obj [] }

/-- The registry already holding `alpha`'s `search`. -/
def alphaRegistry : List (String × MCPTool) := [("search", alphaSearch)]

/-- Claim C1 witness: merging `beta`'s list into a registry owning bare
`search` puts `beta`'s colliding tool under `beta_search`, leaves bare
`search` bound as before, and registers the non-colliding `upload` under
its bare name. -/
theorem c1_collision_insertion_witness :
    alookup (updateToolsRegistry alphaRegistry "beta" [betaSearch, betaUpload])
        (prefKey "beta" "search") =
      some { betaSearch with name := prefKey "beta" "search" } ∧
    alookup (updateToolsRegistry alphaRegistry "beta" [betaSearch, betaUpload])
        "search" = alookup (removeServerTools alphaRegistry "beta") "search" ∧
    alookup (updateToolsRegistry alphaRegistry "beta" [betaSearch, betaUpload])
        "upload" = some betaUpload := by
  have h := c1_collision_insertion alphaRegistry "beta" [betaSearch, betaUpload]
    (by decide) (by decide)
  refine ⟨?_, ?_, ?_⟩
  · exact ((h.2 betaSearch (by simp)).1 rfl).1
  · exact ((h.2 betaSearch (by simp)).1 rfl).2
  · exact (h.2 betaUpload (by simp)).2 rfl

end IntelliCLI
